import Mathlib

/-!
Shallow embedding of the frame-rendering core in `src/ui/content.rs` of the
`wiper` terminal disk browser, together with proofs about its rendering
behaviour: log-line truncation and timestamp formatting, the stats panel,
sort-dependent table headers, highlight styling, layout splitting, and the
defensive properties of the renderer.

Strings that undergo Rust byte-indexed operations are embedded as `List Char`
(Unicode scalar values), with explicit UTF-8 byte-length accounting, so that
Rust's byte-based `len()` and slice indexing (which panics on a non-boundary
index) are modelled faithfully.  Fallible paths (panics) are modelled with
`Except String`.
-/

namespace Wiper

/-- Decidable equality on `Except`, used to evaluate the embedded
fallible renderers on concrete inputs. -/
instance {ε α : Type} [DecidableEq ε] [DecidableEq α] :
    DecidableEq (Except ε α) := fun x y =>
  match x, y with
  | .ok a, .ok b =>
    if h : a = b then isTrue (by rw [h])
    else isFalse (by intro hc; cases hc; exact h rfl)
  | .error a, .error b =>
    if h : a = b then isTrue (by rw [h])
    else isFalse (by intro hc; cases hc; exact h rfl)
  | .ok _, .error _ => isFalse (by intro hc; cases hc)
  | .error _, .ok _ => isFalse (by intro hc; cases hc)

/-- Sort mode of the listing (`crate::fs::SortBy`): by title or by size. -/
inductive SortBy
  | Title
  | Size
deriving DecidableEq

/-- The fields of `crate::config::UIConfig` read by this module:
sort mode, debug flag, and the pending-deletion flag. -/
structure UIConfig where
  sort_by : SortBy
  debug_enabled : Bool
  confirming_deletion : Bool
deriving DecidableEq

/-- Severity of a log message (`crate::logger::MessageLevel`). -/
inductive MessageLevel
  | Info
  | Error
deriving DecidableEq

/-- Modelled from the spec: one entry of a directory listing (`crate::fs`,
not under src/): a display name, a size, a relative space metric and a type
indicator. -/
structure Entry where
  title : String
  size : Nat
  space : Nat
  is_dir : Bool
deriving DecidableEq

/-- Modelled from the spec: `crate::fs::Folder` (not under src/): an ordered
entry sequence plus the cursor index of the highlighted entry. -/
structure Folder where
  entries : List Entry
  cursor_index : Nat
deriving DecidableEq

/-- `crate::logger::Logger`: an ordered buffer of
(creation timestamp in epoch ms, severity, message text) tuples.  The
message text is embedded as `List Char`. -/
structure Logger where
  messages : List (Nat × MessageLevel × List Char)

/-- `DebugData` from `src/ui/content.rs`: per-frame diagnostics. -/
structure DebugData where
  time_taken : Option Nat
  fps : String
  skipped_frames : String
  folders : Nat
  spin_symbol : Char × Char

/-- Modelled from the spec: the fixed colour-theme constants of
`crate::ui::constants` (not under src/), as distinct named colours. -/
inductive Color
  | NORMAL_ROW_COLOR
  | TABLE_HEADER_BG
  | TABLE_HEADER_FG
  | TEXT_COLOR
  | TEXT_PRE_DELETED_BG
  | TEXT_SELECTED_BG
deriving DecidableEq

/-- A ratatui style: optional foreground and background colours. -/
structure Style where
  fg : Option Color := none
  bg : Option Color := none
deriving DecidableEq

/-- A ratatui rectangle (cell coordinates). -/
structure Rect where
  x : Nat
  y : Nat
  width : Nat
  height : Nat
deriving DecidableEq

/-- The ratatui layout constraints used by this module. -/
inductive Constraint
  | length (n : Nat)
  | min (n : Nat)
  | max (n : Nat)
  | fill (n : Nat)
deriving DecidableEq

/-- `MAX_LOG_LEN` from `src/ui/content.rs`. -/
def MAX_LOG_LEN : Nat := 40

/-- Number of bytes of the UTF-8 encoding of one Unicode scalar value. -/
def utf8CharLen (c : Char) : Nat :=
  if c.toNat < 0x80 then 1
  else if c.toNat < 0x800 then 2
  else if c.toNat < 0x10000 then 3
  else 4

/-- UTF-8 byte length of a string, i.e. Rust `String::len`. -/
def utf8Len (cs : List Char) : Nat :=
  (cs.map utf8CharLen).sum

/-- Rust byte slice `&s[..n]`: the characters occupying the first `n` bytes.
Returns `none` when `n` is past the end or falls inside a multibyte
character (Rust panics in both cases). -/
def takeBytes (n : Nat) (cs : List Char) : Option (List Char) :=
  match n, cs with
  | 0, _ => some []
  | _ + 1, [] => none
  | m + 1, c :: rest =>
    if utf8CharLen c ≤ m + 1 then
      (takeBytes (m + 1 - utf8CharLen c) rest).map (c :: ·)
    else
      none

/-- Rust byte slice `&s[n..]`: the characters after the first `n` bytes.
Returns `none` when `n` is past the end or falls inside a multibyte
character (Rust panics in both cases). -/
def dropBytes (n : Nat) (cs : List Char) : Option (List Char) :=
  match n, cs with
  | 0, rest => some rest
  | _ + 1, [] => none
  | m + 1, c :: rest =>
    if utf8CharLen c ≤ m + 1 then
      dropBytes (m + 1 - utf8CharLen c) rest
    else
      none

/-- The truncation step of `render_debug_panel`: when the byte length
exceeds `MAX_LOG_LEN`, replace the message with its first
`MAX_LOG_LEN / 4` bytes, a two-dot marker, and its last
`MAX_LOG_LEN / 4 * 3` bytes.  `none` models the slice-index panic when a
byte offset is not a character boundary. -/
def truncateLog (message : List Char) : Option (List Char) :=
  if MAX_LOG_LEN < utf8Len message then
    match takeBytes (MAX_LOG_LEN / 4) message,
          dropBytes (utf8Len message - MAX_LOG_LEN / 4 * 3) message with
    | some hd, some tl => some (hd ++ ('.' :: '.' :: []) ++ tl)
    | _, _ => none
  else
    some message

/-- Models Rust `format` with a one-decimal float spec applied to
`ms as f64 / 1000.0`: the elapsed seconds rounded to one decimal place
(ties rounded half to even on the exact value; the binary f64 value can
perturb exact ties, which no theorem below depends on). -/
def fmt1dp (ms : Nat) : List Char :=
  let base := ms / 100
  let r := ms % 100
  let q :=
    if 50 < r then base + 1
    else if r < 50 then base
    else if base % 2 = 0 then base else base + 1
  (Nat.repr (q / 10)).data ++ ('.' :: (Nat.repr (q % 10)).data)

/-- One iteration of the log-message loop of `render_debug_panel`:
read the clock (`none` models a failing `duration_since`, on which the
code panics via `expect`), subtract the stored timestamp with an
unguarded `u128` subtraction (underflow is a debug-build panic, modelled
as an error; release builds wrap), truncate, and build the line
`[<seconds>] - <message>`. -/
def renderLogLine (now? : Option Nat) (timestamp : Nat) (message : List Char) :
    Except String (List Char) :=
  match now? with
  | none => .error "Time went backwards"
  | some current_timestamp_ms =>
    if current_timestamp_ms < timestamp then
      .error "attempt to subtract with overflow"
    else
      let elapsed_ms := current_timestamp_ms - timestamp
      match truncateLog message with
      | none => .error "byte index is not a char boundary"
      | some m =>
        .ok ('[' :: (fmt1dp elapsed_ms ++ (']' :: ' ' :: '-' :: ' ' :: m)))

/-- Severity-to-style mapping of the log list items. -/
def logStyle : MessageLevel → Style
  | .Info => { fg := some Color.TEXT_COLOR }
  | .Error => { fg := some Color.TEXT_PRE_DELETED_BG }

/-- The log block of `render_debug_panel`: every buffered message rendered
in order, each paired with its severity style.  An error (panic) on any
message aborts the whole pass. -/
def renderLogItems (now? : Option Nat)
    (messages : List (Nat × MessageLevel × List Char)) :
    Except String (List (List Char × Style)) :=
  match messages with
  | [] => .ok []
  | (timestamp, level, message) :: rest =>
    match renderLogLine now? timestamp message with
    | .error e => .error e
    | .ok line =>
      match renderLogItems now? rest with
      | .error e => .error e
      | .ok items => .ok ((line, logStyle level) :: items)

/-- The elapsed-time text of the stats block: the measured duration, or
the literal placeholder when no measurement is available. -/
def timeTakenStr (dd : DebugData) : String :=
  (dd.time_taken.map toString).getD "..."

/-- The stats text of `render_debug_panel`, a single formatted string. -/
def stats_text (dd : DebugData) : String :=
  "Folders: " ++ toString dd.folders ++
  "\nDone in: " ++ timeTakenStr dd ++
  "\nFPS: " ++ dd.fps ++ " | Skipped: " ++ dd.skipped_frames

/-- Split a character sequence at newline characters (models how ratatui
`Text::from` turns one formatted string into display lines). -/
def splitNl : List Char → List (List Char)
  | [] => [[]]
  | c :: rest =>
    if c = '\n' then [] :: splitNl rest
    else
      match splitNl rest with
      | [] => [[c]]
      | l :: ls => (c :: l) :: ls

/-- The display lines of the stats block. -/
def statsLines (dd : DebugData) : List (List Char) :=
  splitNl (stats_text dd).data

/-- `render_debug_panel` as a value: the stats text plus every rendered
log item; an error models the panic that aborts the render pass. -/
def render_debug_panel (now? : Option Nat) (logger : Logger)
    (dd : DebugData) :
    Except String (String × List (List Char × Style)) :=
  match renderLogItems now? logger.messages with
  | .error e => .error e
  | .ok items => .ok (stats_text dd, items)

/-- Modelled from the spec: the fixed constant width of the space column
(`TABLE_SPACE_WIDTH` in `crate::ui::constants`, not under src/; any fixed
value preserves the properties proved here). -/
def TABLE_SPACE_WIDTH : Nat := 12

/-- The sort-dependent header labels of `render_table`. -/
def header_titles : SortBy → List String
  | .Title => ["", "Name ↓", "Size", "Space"]
  | .Size => ["", "Name", "Size ↓", "Space"]

/-- Whether a header label carries the trailing down-arrow glyph. -/
def hasDownArrow (s : String) : Bool :=
  s.data.getLast? == some '↓'

/-- A header label with its down-arrow suffix (a space and the arrow)
removed, when present. -/
def stripArrow (s : String) : String :=
  if hasDownArrow s then String.mk s.data.dropLast.dropLast else s

/-- Modelled from the spec: `folder_to_rows` (`crate::ui::utils`, not
under src/) yields one row per entry, in listing order, of four
pre-formatted cell strings aligned to the marker, name, size and space
columns, the in-progress indicator drawn from the supplied glyph. -/
def folder_to_rows (folder : Folder) (loading_indicator : Char) :
    List (List String) :=
  folder.entries.map fun e =>
    [if e.is_dir then String.mk [loading_indicator] else "",
     e.title, toString e.size, toString e.space ++ "%"]

/-- The table value built by `render_table`: block styling, header,
rows, column widths and highlight configuration. -/
structure RenderedTable where
  blockFg : Color
  blockBg : Color
  padding : Nat
  headerTitles : List String
  headerStyle : Style
  rows : List (List String)
  widths : List Constraint
  highlightSymbol : String
  highlightStyle : Style
  alwaysSpacing : Bool
  selected : Nat
deriving DecidableEq

/-- `render_table` from `src/ui/content.rs` as a value. -/
def render_table (folder : Folder) (config : UIConfig)
    (loading_indicator : Char) : RenderedTable :=
  { blockFg := Color.TEXT_COLOR
    blockBg := Color.NORMAL_ROW_COLOR
    padding := 1
    headerTitles := header_titles config.sort_by
    headerStyle := { fg := some Color.TABLE_HEADER_FG,
                     bg := some Color.TABLE_HEADER_BG }
    rows := folder_to_rows folder loading_indicator
    widths := [Constraint.length 1, Constraint.length 40,
               Constraint.length 20, Constraint.length TABLE_SPACE_WIDTH]
    highlightSymbol := "> "
    highlightStyle :=
      if config.confirming_deletion then
        { bg := some Color.TEXT_PRE_DELETED_BG }
      else
        { bg := some Color.TEXT_SELECTED_BG }
    alwaysSpacing := true
    selected := folder.cursor_index }

/-- Models ratatui table rendering of the selection state: the stateful
widget highlights row `selected` when it exists and highlights no row for
an out-of-range selection; it never panics. -/
def highlightedRow (t : RenderedTable) : Option Nat :=
  if t.selected < t.rows.length then some t.selected else none

/-- The constraint pair `render_content` passes to `Layout::horizontal`. -/
def horizontalConstraints (debug_enabled : Bool) : Constraint × Constraint :=
  match debug_enabled with
  | true => (Constraint.min 1, Constraint.min 1)
  | false => (Constraint.min 1, Constraint.max 0)

/-- Models ratatui `Layout::horizontal` resolution for the two constraint
pairs used by `render_content`: two `Min` constraints split the width
evenly with the first region taking the extra cell when the width is odd,
and a trailing `Max 0` collapses the second region to zero width. -/
def resolveTwoH (w : Nat) : Constraint × Constraint → Nat × Nat
  | (Constraint.min _, Constraint.min _) => (w - w / 2, w / 2)
  | _ => (w, 0)

/-- One drawing call issued by `render_content`, with its target region. -/
inductive DrawOp
  | table (region : Rect) (folder : Folder) (config : UIConfig) (glyph : Char)
  | debugPanel (region : Rect) (logger : Logger) (dd : DebugData)

/-- The region a drawing call writes into. -/
def opRect : DrawOp → Rect
  | .table r _ _ _ => r
  | .debugPanel r _ _ => r

/-- The widths of the content and debug columns computed by
`render_content` for a given debug flag. -/
def contentSplit (area : Rect) (debug_enabled : Bool) : Nat × Nat :=
  resolveTwoH area.width (horizontalConstraints debug_enabled)

/-- `render_content` from `src/ui/content.rs`: split the area, draw the
table when a folder is present, draw the debug panel when debugging is
enabled. -/
def renderContentOps (area : Rect) (maybe_folder : Option Folder)
    (config : UIConfig) (logger : Logger) (dd : DebugData) : List DrawOp :=
  let wpair := contentSplit area config.debug_enabled
  let content_col : Rect := ⟨area.x, area.y, wpair.1, area.height⟩
  let debug_col : Rect := ⟨area.x + wpair.1, area.y, wpair.2, area.height⟩
  (match maybe_folder with
   | some folder => [DrawOp.table content_col folder config dd.spin_symbol.1]
   | none => []) ++
  (if config.debug_enabled then [DrawOp.debugPanel debug_col logger dd]
   else [])

/-- Whether a cell position lies inside a rectangle. -/
def inRect (r : Rect) (p : Nat × Nat) : Prop :=
  r.x ≤ p.1 ∧ p.1 < r.x + r.width ∧ r.y ≤ p.2 ∧ p.2 < r.y + r.height

instance (r : Rect) (p : Nat × Nat) : Decidable (inRect r p) := by
  unfold inRect; infer_instance

/-- Apply one drawing call to a buffer: a widget overwrites exactly the
cells of its region (with contents given by an arbitrary painter) and
leaves every other cell unchanged. -/
def paintOp {α : Type} (painter : DrawOp → Nat × Nat → α)
    (buf : Nat × Nat → α) (op : DrawOp) : Nat × Nat → α :=
  fun p => if inRect (opRect op) p then painter op p else buf p

/-- Apply a sequence of drawing calls to a buffer, in order. -/
def paintOps {α : Type} (painter : DrawOp → Nat × Nat → α)
    (ops : List DrawOp) (buf : Nat × Nat → α) : Nat × Nat → α :=
  ops.foldl (paintOp painter) buf

/-- A 25-character message of two-byte characters: 25 characters but 50
UTF-8 bytes, so Rust byte-based truncation fires although the character
count is at most 40, and both byte offsets land on character boundaries. -/
def msgAlpha : List Char := List.replicate 25 'α'

/-- A 14-character message of three-byte characters: 42 UTF-8 bytes, and
byte offset 10 falls inside a character, so the slice panics. -/
def msgEuro : List Char := List.replicate 14 '€'

/-- C4: for every sort mode the header row has the four labels in the
fixed order marker, Name, Size, Space; exactly one label carries the
trailing down-arrow; it sits on Name exactly for `SortBy.Title` and on
Size exactly for `SortBy.Size`; the marker and space labels never carry
it; and stripping the arrow yields the same column order for both
modes. -/
theorem header_arrow (sb : SortBy) :
    (header_titles sb).map stripArrow = ["", "Name", "Size", "Space"] ∧
    ((header_titles sb).filter (fun s => hasDownArrow s)).length = 1 ∧
    (hasDownArrow ((header_titles sb).getD 1 "") = true ↔ sb = SortBy.Title) ∧
    (hasDownArrow ((header_titles sb).getD 2 "") = true ↔ sb = SortBy.Size) ∧
    hasDownArrow ((header_titles sb).getD 0 "") = false ∧
    hasDownArrow ((header_titles sb).getD 3 "") = false := by
  cases sb <;> decide

/-- C7: two `render_table` calls that differ only in
`confirming_deletion` agree on every component of the rendered table
(block colours, padding, header, rows, widths, highlight symbol,
spacing, selected row) except the highlight style, which is the
pending-deletion background when the flag is set and the normal selected
background otherwise, and those two styles differ. -/
theorem confirming_deletion_only_highlight (folder : Folder)
    (cfg : UIConfig) (glyph : Char) :
    (render_table folder { cfg with confirming_deletion := true } glyph).blockFg =
      (render_table folder { cfg with confirming_deletion := false } glyph).blockFg ∧
    (render_table folder { cfg with confirming_deletion := true } glyph).blockBg =
      (render_table folder { cfg with confirming_deletion := false } glyph).blockBg ∧
    (render_table folder { cfg with confirming_deletion := true } glyph).padding =
      (render_table folder { cfg with confirming_deletion := false } glyph).padding ∧
    (render_table folder { cfg with confirming_deletion := true } glyph).headerTitles =
      (render_table folder { cfg with confirming_deletion := false } glyph).headerTitles ∧
    (render_table folder { cfg with confirming_deletion := true } glyph).headerStyle =
      (render_table folder { cfg with confirming_deletion := false } glyph).headerStyle ∧
    (render_table folder { cfg with confirming_deletion := true } glyph).rows =
      (render_table folder { cfg with confirming_deletion := false } glyph).rows ∧
    (render_table folder { cfg with confirming_deletion := true } glyph).widths =
      (render_table folder { cfg with confirming_deletion := false } glyph).widths ∧
    (render_table folder { cfg with confirming_deletion := true } glyph).highlightSymbol =
      (render_table folder { cfg with confirming_deletion := false } glyph).highlightSymbol ∧
    (render_table folder { cfg with confirming_deletion := true } glyph).alwaysSpacing =
      (render_table folder { cfg with confirming_deletion := false } glyph).alwaysSpacing ∧
    (render_table folder { cfg with confirming_deletion := true } glyph).selected =
      (render_table folder { cfg with confirming_deletion := false } glyph).selected ∧
    (render_table folder { cfg with confirming_deletion := true } glyph).highlightStyle =
      { bg := some Color.TEXT_PRE_DELETED_BG } ∧
    (render_table folder { cfg with confirming_deletion := false } glyph).highlightStyle =
      { bg := some Color.TEXT_SELECTED_BG } ∧
    (render_table folder { cfg with confirming_deletion := true } glyph).highlightStyle ≠
      (render_table folder { cfg with confirming_deletion := false } glyph).highlightStyle := by
  refine ⟨rfl, rfl, rfl, rfl, rfl, rfl, rfl, rfl, rfl, rfl, rfl, rfl, ?_⟩
  show ({ bg := some Color.TEXT_PRE_DELETED_BG } : Style) ≠
    { bg := some Color.TEXT_SELECTED_BG }
  decide

/-- C8: a cursor index at or beyond the entry count (in particular any
cursor over an empty listing) produces a table whose selection highlights
no row; the render is a total function, so no error is raised. -/
theorem out_of_range_cursor_safe (folder : Folder) (cfg : UIConfig)
    (glyph : Char) (h : folder.entries.length ≤ folder.cursor_index) :
    highlightedRow (render_table folder cfg glyph) = none := by
  have hlen : (render_table folder cfg glyph).rows.length =
      folder.entries.length := by
    simp [render_table, folder_to_rows]
  have hsel : (render_table folder cfg glyph).selected =
      folder.cursor_index := rfl
  unfold highlightedRow
  rw [hlen, hsel, if_neg (by omega)]

/-- Witness for C8 at a one-entry listing with cursor 5. -/
theorem out_of_range_cursor_safe_witness :
    highlightedRow (render_table ⟨[⟨"a.txt", 10, 1, false⟩], 5⟩
      ⟨SortBy.Title, false, false⟩ 'x') = none :=
  out_of_range_cursor_safe _ _ _ (by decide)

/-- C10: a message whose stored timestamp exceeds the current wall-clock
milliseconds makes the unguarded u128 subtraction in `render_debug_panel`
underflow: there is no floor at zero, and the elapsed value is undefined
(a panic in debug builds, modelled here as the error; release builds
wrap around). -/
theorem elapsed_underflow (now timestamp : Nat) (message : List Char)
    (h : now < timestamp) :
    renderLogLine (some now) timestamp message =
      Except.error "attempt to subtract with overflow" := by
  simp [renderLogLine, h]

/-- Witness for C10 at a message dated 1.5 seconds into the future. -/
theorem elapsed_underflow_witness :
    renderLogLine (some 1000) 2500 "boot".data =
      Except.error "attempt to subtract with overflow" :=
  elapsed_underflow 1000 2500 "boot".data (by decide)

/-- C2 (code behaviour at the failing input): when the clock read fails
(`duration_since` has no value), the very first buffered message makes
`render_debug_panel` abort the whole render pass with the
`Time went backwards` panic; no fallback elapsed value is substituted. -/
theorem clock_failure_aborts (timestamp : Nat) (level : MessageLevel)
    (message : List Char) (rest : List (Nat × MessageLevel × List Char))
    (dd : DebugData) :
    render_debug_panel none ⟨(timestamp, level, message) :: rest⟩ dd =
      Except.error "Time went backwards" := rfl

/-- C9: the length test and the truncation of `render_debug_panel` work
on UTF-8 byte offsets, not character counts: any message of byte length
at most 40 is left untouched; `msgAlpha` has only 25 characters yet 50
bytes and is truncated; and `msgEuro` has byte length 42 with byte
offset 10 inside a multibyte character, on which the slicing panics
(`truncateLog` returns `none`) instead of producing a line. -/
theorem truncation_byte_based :
    (∀ message : List Char, utf8Len message ≤ MAX_LOG_LEN →
      truncateLog message = some message) ∧
    (msgAlpha.length ≤ 40 ∧ 40 < utf8Len msgAlpha ∧
      truncateLog msgAlpha ≠ some msgAlpha) ∧
    (40 < utf8Len msgEuro ∧ truncateLog msgEuro = none) := by
  refine ⟨?_, by decide, by decide⟩
  intro message h
  unfold truncateLog
  rw [if_neg (by omega)]

/-- Witness for C9: a short all-ASCII message passes through unchanged. -/
theorem truncation_byte_based_witness :
    truncateLog "tiny".data = some "tiny".data :=
  truncation_byte_based.1 "tiny".data (by decide)

/-- C1 as stated fails on the code: `msgAlpha` has 25 characters, which
is at most 40, yet the rendered line is not the unmodified message
(first disequality, refuting the character-count reading); nor is it the
first 10 characters, the marker, and the last 30 characters (second
disequality, refuting a character-based slicing reading). -/
theorem log_line_char_reading_cex :
    msgAlpha.length ≤ 40 ∧
    renderLogLine (some 2300) 0 msgAlpha ≠
      Except.ok ('[' :: (fmt1dp 2300 ++ (']' :: ' ' :: '-' :: ' ' :: msgAlpha))) ∧
    renderLogLine (some 2300) 0 msgAlpha ≠
      Except.ok ('[' :: (fmt1dp 2300 ++ (']' :: ' ' :: '-' :: ' ' ::
        (msgAlpha.take 10 ++ ('.' :: '.' :: []) ++
          msgAlpha.drop (msgAlpha.length - 30))))) := by
  decide

/-- Dissection of a successful truncation: the message passes through
unchanged when its byte length is at most `MAX_LOG_LEN`, and otherwise
the result is the first 10 bytes, the two-dot marker and the last 30
bytes, with both byte slices succeeding. -/
theorem truncateLog_eq_some (message m : List Char)
    (h : truncateLog message = some m) :
    (utf8Len message ≤ MAX_LOG_LEN → m = message) ∧
    (MAX_LOG_LEN < utf8Len message →
      ∃ hd tl, takeBytes (MAX_LOG_LEN / 4) message = some hd ∧
        dropBytes (utf8Len message - MAX_LOG_LEN / 4 * 3) message = some tl ∧
        m = hd ++ ('.' :: '.' :: []) ++ tl) := by
  unfold truncateLog at h
  by_cases hl : MAX_LOG_LEN < utf8Len message
  · rw [if_pos hl] at h
    refine ⟨fun hle => absurd hl (by omega), fun _ => ?_⟩
    cases ht : takeBytes (MAX_LOG_LEN / 4) message with
    | none =>
      rw [ht] at h
      cases hd : dropBytes (utf8Len message - MAX_LOG_LEN / 4 * 3) message <;>
        rw [hd] at h <;> cases h
    | some hdv =>
      cases hd : dropBytes (utf8Len message - MAX_LOG_LEN / 4 * 3) message with
      | none => rw [ht, hd] at h; cases h
      | some tlv =>
        rw [ht, hd] at h
        exact ⟨hdv, tlv, rfl, rfl, (Option.some.inj h).symm⟩
  · rw [if_neg hl] at h
    exact ⟨fun _ => (Option.some.inj h).symm, fun hc => absurd hc hl⟩

/-- C1 amended: every log line actually rendered (no panic) has the form
`[<seconds>] - <core>` with the elapsed milliseconds formatted to one
decimal place by `fmt1dp`, where the core is the original text when its
UTF-8 byte length is at most 40 and otherwise its first 10 bytes, the
two-character marker, and its last 30 bytes. -/
theorem log_line_shape (now timestamp : Nat) (message line : List Char)
    (h : renderLogLine (some now) timestamp message = Except.ok line) :
    ∃ core, truncateLog message = some core ∧
      line = '[' :: (fmt1dp (now - timestamp) ++
        (']' :: ' ' :: '-' :: ' ' :: core)) ∧
      (utf8Len message ≤ MAX_LOG_LEN → core = message) ∧
      (MAX_LOG_LEN < utf8Len message →
        ∃ hd tl, takeBytes (MAX_LOG_LEN / 4) message = some hd ∧
          dropBytes (utf8Len message - MAX_LOG_LEN / 4 * 3) message = some tl ∧
          core = hd ++ ('.' :: '.' :: []) ++ tl) := by
  simp only [renderLogLine] at h
  by_cases hlt : now < timestamp
  · rw [if_pos hlt] at h; cases h
  · rw [if_neg hlt] at h
    cases htr : truncateLog message with
    | none => rw [htr] at h; cases h
    | some m =>
      rw [htr] at h
      have hline := (Except.ok.inj h).symm
      obtain ⟨h1, h2⟩ := truncateLog_eq_some message m htr
      exact ⟨m, rfl, hline, h1, h2⟩

/-- Witness for C1 (amended) at a short message and a 2.3 second age. -/
theorem log_line_shape_witness :
    ∃ core, truncateLog "hello".data = some core ∧
      "[2.3] - hello".data = '[' :: (fmt1dp (2300 - 0) ++
        (']' :: ' ' :: '-' :: ' ' :: core)) ∧
      (utf8Len "hello".data ≤ MAX_LOG_LEN → core = "hello".data) ∧
      (MAX_LOG_LEN < utf8Len "hello".data →
        ∃ hd tl, takeBytes (MAX_LOG_LEN / 4) "hello".data = some hd ∧
          dropBytes (utf8Len "hello".data - MAX_LOG_LEN / 4 * 3) "hello".data
            = some tl ∧
          core = hd ++ ('.' :: '.' :: []) ++ tl) :=
  log_line_shape 2300 0 "hello".data "[2.3] - hello".data (by decide)

/-- C3 as stated fails on the code: at a concrete snapshot the stats
block renders exactly three display lines, the frames-per-second string
and the skipped-frame string sharing the third line, so the four values
are not each on their own separate line. -/
theorem stats_lines_cex :
    statsLines ⟨some 2, "60", "0", 1, ('a', 'b')⟩ =
      ["Folders: 1".data, "Done in: 2".data, "FPS: 60 | Skipped: 0".data] ∧
    (statsLines ⟨some 2, "60", "0", 1, ('a', 'b')⟩).length = 3 := by
  decide

/-- Unfolding equation of `splitNl` on a cons cell. -/
theorem splitNl_cons (c : Char) (rest : List Char) :
    splitNl (c :: rest) =
      if c = '\n' then [] :: splitNl rest
      else
        match splitNl rest with
        | [] => [[c]]
        | l :: ls => (c :: l) :: ls := rfl

/-- A newline-free chunk is a single display line. -/
theorem splitNl_no_newline (a : List Char) (h : '\n' ∉ a) :
    splitNl a = [a] := by
  induction a with
  | nil => rfl
  | cons c a ih =>
    have hc : ¬ c = '\n' := by
      intro hc; exact h (by simp [hc])
    have ha : '\n' ∉ a := by
      intro hm; exact h (by simp [hm])
    rw [splitNl_cons, if_neg hc, ih ha]

/-- Splitting at newlines peels off a newline-free first chunk. -/
theorem splitNl_append_newline (a b : List Char) (h : '\n' ∉ a) :
    splitNl (a ++ '\n' :: b) = a :: splitNl b := by
  induction a with
  | nil => simp [splitNl]
  | cons c a ih =>
    have hc : ¬ c = '\n' := by
      intro hc; exact h (by simp [hc])
    have ha : '\n' ∉ a := by
      intro hm; exact h (by simp [hm])
    rw [List.cons_append, splitNl_cons, if_neg hc, ih ha]

/-- C3 amended: the stats block renders exactly three lines — the entry
count on its own line, the elapsed time on its own line (the measured
duration when present, the literal placeholder when `time_taken` is
`none`), and the frames-per-second and skipped-frame strings together on
the third line separated by a vertical bar. -/
theorem stats_lines (dd : DebugData)
    (hn : '\n' ∉ (toString dd.folders).data)
    (ht : '\n' ∉ (timeTakenStr dd).data)
    (hf : '\n' ∉ dd.fps.data)
    (hs : '\n' ∉ dd.skipped_frames.data) :
    statsLines dd =
      [("Folders: " ++ toString dd.folders).data,
       ("Done in: " ++ timeTakenStr dd).data,
       ("FPS: " ++ dd.fps ++ " | Skipped: " ++ dd.skipped_frames).data] ∧
    (dd.time_taken = none → timeTakenStr dd = "...") ∧
    (∀ t, dd.time_taken = some t → timeTakenStr dd = toString t) := by
  refine ⟨?_, ?_, ?_⟩
  · have hshape : (stats_text dd).data =
        ("Folders: ".data ++ (toString dd.folders).data) ++ '\n' ::
          (("Done in: ".data ++ (timeTakenStr dd).data) ++ '\n' ::
            ("FPS: ".data ++ dd.fps.data ++ " | Skipped: ".data ++
              dd.skipped_frames.data)) := by
      simp [stats_text, String.data_append, List.append_assoc]
    have hm1 : '\n' ∉ "Folders: ".data ++ (toString dd.folders).data := by
      intro hm
      rcases List.mem_append.mp hm with hm | hm
      · exact absurd hm (by decide)
      · exact hn hm
    have hm2 : '\n' ∉ "Done in: ".data ++ (timeTakenStr dd).data := by
      intro hm
      rcases List.mem_append.mp hm with hm | hm
      · exact absurd hm (by decide)
      · exact ht hm
    have hm3 : '\n' ∉ "FPS: ".data ++ dd.fps.data ++ " | Skipped: ".data ++
        dd.skipped_frames.data := by
      intro hm
      simp only [List.mem_append] at hm
      rcases hm with ((hm | hm) | hm) | hm
      · exact absurd hm (by decide)
      · exact hf hm
      · exact absurd hm (by decide)
      · exact hs hm
    unfold statsLines
    rw [hshape, splitNl_append_newline _ _ hm1, splitNl_append_newline _ _ hm2,
      splitNl_no_newline _ hm3]
    simp [String.data_append, List.append_assoc]
  · intro h0; simp [timeTakenStr, h0]
  · intro t h0; simp [timeTakenStr, h0]

/-- Witness for C3 (amended) at a concrete snapshot with no measured
duration, checking the placeholder line. -/
theorem stats_lines_witness :
    statsLines ⟨none, "144", "7", 23, ('a', 'b')⟩ =
      [("Folders: " ++ toString (23 : Nat)).data,
       ("Done in: " ++ timeTakenStr ⟨none, "144", "7", 23, ('a', 'b')⟩).data,
       ("FPS: " ++ "144" ++ " | Skipped: " ++ "7").data] ∧
    ((⟨none, "144", "7", 23, ('a', 'b')⟩ : DebugData).time_taken = none →
      timeTakenStr ⟨none, "144", "7", 23, ('a', 'b')⟩ = "...") ∧
    (∀ t, (⟨none, "144", "7", 23, ('a', 'b')⟩ : DebugData).time_taken = some t →
      timeTakenStr ⟨none, "144", "7", 23, ('a', 'b')⟩ = toString t) :=
  stats_lines ⟨none, "144", "7", 23, ('a', 'b')⟩
    (by decide) (by decide) (by decide) (by decide)

/-- C5: `render_content` splits the surface horizontally into a content
column and a debug column.  With debugging enabled the two widths sum to
the surface width and differ by at most one cell (an even split
favouring content), and the Diagnostics Renderer is invoked on the
second column; with debugging disabled the second column has zero width
and the Diagnostics Renderer is not invoked. -/
theorem content_split_even (area : Rect) (maybe_folder : Option Folder)
    (cfg : UIConfig) (lg : Logger) (dd : DebugData) :
    (cfg.debug_enabled = true →
      (contentSplit area true).1 + (contentSplit area true).2 = area.width ∧
      (contentSplit area true).2 ≤ (contentSplit area true).1 ∧
      (contentSplit area true).1 ≤ (contentSplit area true).2 + 1 ∧
      DrawOp.debugPanel
        ⟨area.x + (contentSplit area true).1, area.y,
         (contentSplit area true).2, area.height⟩ lg dd ∈
        renderContentOps area maybe_folder cfg lg dd) ∧
    (cfg.debug_enabled = false →
      (contentSplit area false).2 = 0 ∧
      ∀ r lg2 dd2, DrawOp.debugPanel r lg2 dd2 ∉
        renderContentOps area maybe_folder cfg lg dd) := by
  constructor
  · intro hdbg
    refine ⟨?_, ?_, ?_, ?_⟩
    · simp only [contentSplit, horizontalConstraints, resolveTwoH]; omega
    · simp only [contentSplit, horizontalConstraints, resolveTwoH]; omega
    · simp only [contentSplit, horizontalConstraints, resolveTwoH]; omega
    · cases maybe_folder <;> simp [renderContentOps, hdbg]
  · intro hdbg
    constructor
    · simp [contentSplit, horizontalConstraints, resolveTwoH]
    · intro r lg2 dd2 hmem
      cases maybe_folder <;> simp [renderContentOps, hdbg] at hmem

/-- Witness for C5 at an 11-cell-wide surface with debugging enabled:
the even split gives widths 6 and 5 and the debug panel draw occurs. -/
theorem content_split_even_witness :
    (contentSplit ⟨0, 0, 11, 4⟩ true).1 + (contentSplit ⟨0, 0, 11, 4⟩ true).2
        = (⟨0, 0, 11, 4⟩ : Rect).width ∧
    (contentSplit ⟨0, 0, 11, 4⟩ true).2 ≤ (contentSplit ⟨0, 0, 11, 4⟩ true).1 ∧
    (contentSplit ⟨0, 0, 11, 4⟩ true).1 ≤ (contentSplit ⟨0, 0, 11, 4⟩ true).2 + 1 ∧
    DrawOp.debugPanel
      ⟨0 + (contentSplit ⟨0, 0, 11, 4⟩ true).1, 0,
       (contentSplit ⟨0, 0, 11, 4⟩ true).2, 4⟩ ⟨[]⟩
      ⟨none, "1", "2", 3, ('a', 'b')⟩ ∈
      renderContentOps ⟨0, 0, 11, 4⟩ none ⟨SortBy.Title, true, false⟩ ⟨[]⟩
        ⟨none, "1", "2", 3, ('a', 'b')⟩ :=
  (content_split_even ⟨0, 0, 11, 4⟩ none ⟨SortBy.Title, true, false⟩ ⟨[]⟩
    ⟨none, "1", "2", 3, ('a', 'b')⟩).1 rfl

/-- C6: when no listing is present, `render_content` issues no table
draw, and — for every painter semantics in which a widget writes only
inside its assigned region — every cell of the content column is left
unchanged; the render is total, so no error is raised. -/
theorem content_untouched {α : Type} (painter : DrawOp → Nat × Nat → α)
    (area : Rect) (cfg : UIConfig) (lg : Logger) (dd : DebugData)
    (buf : Nat × Nat → α) (p : Nat × Nat)
    (hp : inRect ⟨area.x, area.y, (contentSplit area cfg.debug_enabled).1,
      area.height⟩ p) :
    paintOps painter (renderContentOps area none cfg lg dd) buf p = buf p ∧
    ∀ r f c g, DrawOp.table r f c g ∉ renderContentOps area none cfg lg dd := by
  constructor
  · cases hdbg : cfg.debug_enabled
    · simp [renderContentOps, hdbg, paintOps]
    · have hops : renderContentOps area none cfg lg dd =
          [DrawOp.debugPanel
            ⟨area.x + (contentSplit area true).1, area.y,
             (contentSplit area true).2, area.height⟩ lg dd] := by
        simp [renderContentOps, hdbg]
      rw [hdbg] at hp
      rw [hops]
      show (if inRect ⟨area.x + (contentSplit area true).1, area.y,
          (contentSplit area true).2, area.height⟩ p then _ else buf p) = buf p
      rw [if_neg ?hneg]
      case hneg =>
        intro hd
        unfold inRect at hp hd
        dsimp only at hp hd
        omega
  · intro r f c g hmem
    cases hdbg : cfg.debug_enabled <;>
      simp [renderContentOps, hdbg] at hmem

/-- Witness for C6: with debugging enabled on a 10-wide surface and no
listing, the content cell at position 1,1 keeps its old value. -/
theorem content_untouched_witness :
    paintOps (fun _ _ => true)
      (renderContentOps ⟨0, 0, 10, 4⟩ none ⟨SortBy.Title, true, false⟩ ⟨[]⟩
        ⟨none, "1", "2", 3, ('a', 'b')⟩)
      (fun _ => false) (1, 1) = false :=
  (content_untouched (fun _ _ => true) ⟨0, 0, 10, 4⟩
    ⟨SortBy.Title, true, false⟩ ⟨[]⟩ ⟨none, "1", "2", 3, ('a', 'b')⟩
    (fun _ => false) (1, 1) (by decide)).1

end Wiper
